import Mathlib

/-!
Shallow embedding of the deferred diff task hierarchy of
`eden/fs/inodes/DeferredDiffEntry.cpp`: the change-detection engine's
schedulable comparison units.  Each C++ `run` method is translated into a
pure Lean function from the task's state and an environment (the
`DiffContext`: options, object-store oracles) to a `RunOutput` recording,
in order, the events emitted through the `DiffCallback`, the asynchronous
store operations performed, the recursive diff computations delegated to
other components, and the success-or-failure outcome of the task's result
handle.
-/

namespace EdenDiff

/-- Content address of a tree or blob (`ObjectId` in the source). Opaque
and comparable; modelled as a natural number. -/
abbrev ObjectId := Nat

/-- A normalized relative path (`RelativePath`), as its list of components. -/
abbrev Path := List String

/-- A git-ignore context stack handle (`const GitIgnoreStack*`): a nullable
pointer that the tasks only pass through, never inspect. -/
abbrev GitIgnoreStack := Option Nat

/-- Errors coming out of the object store / inode resolution
(fetch failures, etc.), identified by a code. -/
abbrev StoreError := Nat

/-- Translation of `TreeEntryType`: the declared kind of a source-control tree entry. -/
inductive TreeEntryType where
  | Tree
  | RegularFile
  | ExecutableFile
  | Symlink
deriving DecidableEq, Repr

/-- Translation of `dtype_t`: the directory-entry-type tag reported through events. -/
inductive Dtype where
  | Dir
  | Regular
  | Symlink
deriving DecidableEq, Repr

/-- Translation of `TreeEntry::getDtype()` on entry types. -/
def TreeEntryType.toDtype : TreeEntryType → Dtype
  | .Tree => .Dir
  | .RegularFile => .Regular
  | .ExecutableFile => .Regular
  | .Symlink => .Symlink

/-- A source-control tree entry (`TreeEntry`): name, declared type,
content address. -/
structure TreeEntry where
  name : String
  ty : TreeEntryType
  id : ObjectId
deriving DecidableEq, Repr

/-- Translation of `TreeEntry::isTree()`. -/
def TreeEntry.isTree (e : TreeEntry) : Bool :=
  e.ty = TreeEntryType.Tree

/-- Translation of `TreeEntry::getDtype()`. -/
def TreeEntry.dtype (e : TreeEntry) : Dtype :=
  e.ty.toDtype

/-- Modelled from the spec: `filteredEntryType` (declared in the tree-entry
value-type header, which is not part of the sampled file) — on
configurations where symlinks are not supported, a source-control symlink
entry is filtered to a plain-file type for comparison purposes. -/
def filteredEntryType (ty : TreeEntryType) (windowsSymlinksEnabled : Bool) :
    TreeEntryType :=
  if ty = TreeEntryType.Symlink ∧ ¬ windowsSymlinksEnabled then
    TreeEntryType.RegularFile
  else
    ty

/-- Modelled from the spec: `filteredEntryDtype` — the directory-entry-type
tag of a symlink entry is likewise filtered to the plain-file tag when
symlinks are not supported. -/
def filteredEntryDtype (d : Dtype) (windowsSymlinksEnabled : Bool) : Dtype :=
  if d = Dtype.Symlink ∧ ¬ windowsSymlinksEnabled then
    Dtype.Regular
  else
    d

/-- One entry of an already-resolved snapshot tree, with subtrees resolved
in place: a blob leaf with its directory-entry-type tag, or a directory
with its own entries. -/
inductive SnapEntryNode where
  | blob (name : String) (d : Dtype)
  | dir (name : String) (sub : List SnapEntryNode)

/-- An already-resolved snapshot tree (`Tree`): its list of entries. -/
abbrev SnapTree := List SnapEntryNode

/-- The contents state of a live directory node (`TreeInode`): materialized
(children are authoritative local state, no stable address), or
unmaterialized with the stable content address it was loaded from. -/
inductive DirState where
  | materialized
  | unmaterialized (treeId : ObjectId)
deriving DecidableEq, Repr

/-- A resolved live working-copy node (`InodePtr` after resolution): a file
node carrying its directory-entry type and its content-identity comparison
(`FileInode::isSameAs`), or a directory node. -/
inductive InodeNode where
  | file (ty : Dtype) (isSameAs : ObjectId → TreeEntryType → Except StoreError Bool)
  | dir (state : DirState)

/-- Translation of `InodeBase::getType()`: the directory-entry type of a live node. -/
def InodeNode.getType : InodeNode → Dtype
  | .file ty _ => ty
  | .dir _ => .Dir

/-- One event delivered through the `DiffCallback` sink. -/
inductive DiffEvent where
  | addedPath (path : Path) (d : Dtype)
  | removedPath (path : Path) (d : Dtype)
  | modifiedPath (path : Path) (d : Dtype)
  | ignoredPath (path : Path) (d : Dtype)
deriving DecidableEq, Repr

/-- The path component of an event. -/
def DiffEvent.path : DiffEvent → Path
  | .addedPath p _ => p
  | .removedPath p _ => p
  | .modifiedPath p _ => p
  | .ignoredPath p _ => p

/-- An asynchronous store operation performed by a task (each one a
suspension point of the cooperative model). -/
inductive StoreOp where
  | getTree (id : ObjectId)
  | areBlobsEqual (a b : ObjectId)
  | isSameAs (id : ObjectId) (ty : TreeEntryType)
deriving DecidableEq, Repr

/-- Whether a store operation is a tree fetch. -/
def StoreOp.isGetTree : StoreOp → Bool
  | .getTree _ => true
  | _ => false

/-- A recursive diff computation a task hands off to another component:
the working-copy directory differ (`TreeInode::diff`, carrying the list of
resolved snapshot trees, the ignore stack and the inherited ignored flag),
the pure tree-vs-tree differ (`diffTrees`), or the pure added-tree differ
(`diffAddedTree`). -/
inductive Delegation where
  | treeDiff (path : Path) (trees : List SnapTree) (ignore : GitIgnoreStack) (isIgnored : Bool)
  | diffTrees (path : Path) (scmId wdId : ObjectId)
  | diffAddedTree (path : Path) (id : ObjectId)

/-- An error a task's result handle can resolve to. -/
inductive DiffError where
  | store (e : StoreError)
  | internalBug (msg : String)
  | indexOutOfBounds
deriving DecidableEq, Repr

/-- The observable behaviour of one task's `run`: events emitted in order,
store operations performed in order, diff computations delegated, and the
value the result handle resolves to. -/
structure RunOutput where
  events : List DiffEvent
  ops : List StoreOp
  delegations : List Delegation
  result : Except DiffError Unit

/-- An output that emitted nothing and failed with the given error. -/
def errorOutput (e : DiffError) : RunOutput :=
  { events := [], ops := [], delegations := [], result := .error e }

/-- The per-run context (`DiffContext`): immutable options plus the
object-store collaborator's oracles. -/
structure DiffContext where
  listIgnored : Bool
  windowsSymlinksEnabled : Bool
  areObjectsKnownIdentical : ObjectId → ObjectId → Bool
  areBlobsEqual : ObjectId → ObjectId → Except StoreError Bool
  getTree : ObjectId → Except StoreError SnapTree

/-- Modelled from the spec: the pure removed-tree recursion
(`diffRemovedTree`, implemented in the recursive tree-vs-tree differ that
lives outside the sampled file) recursively reports every entry formerly
inside the snapshot directory as removed, recursing into subdirectories. -/
def removedTreeEvents (base : Path) : List SnapEntryNode → List DiffEvent
  | [] => []
  | .blob n d :: rest =>
      .removedPath (base ++ [n]) d :: removedTreeEvents base rest
  | .dir n sub :: rest =>
      .removedPath (base ++ [n]) .Dir ::
        (removedTreeEvents (base ++ [n]) sub ++ removedTreeEvents base rest)

/-- The descendant paths of a snapshot tree below a base path, each paired
with its directory-entry type, in recursion order. -/
def descendants (base : Path) : List SnapEntryNode → List (Path × Dtype)
  | [] => []
  | .blob n d :: rest => (base ++ [n], d) :: descendants base rest
  | .dir n sub :: rest =>
      (base ++ [n], Dtype.Dir) ::
        (descendants (base ++ [n]) sub ++ descendants base rest)

/-- Sequence a list of fetch results, failing on the first failure
(`collectAllSafe`). -/
def collectAll : List (Except StoreError SnapTree) → Except StoreError (List SnapTree)
  | [] => .ok []
  | .error e :: _ => .error e
  | .ok t :: rest => (collectAll rest).map (t :: ·)

/-- Translation of `ModifiedDiffEntry::runForScmTree`: the snapshot side's first candidate
is a tree.  If the live node is not a directory, report the shape change
(added or ignored for the live file, removed for the snapshot directory,
then every former entry removed via the pure removed-tree recursion).  If
the live directory is unmaterialized and its stable address is known
identical to any candidate's address, terminate silently.  If
unmaterialized but matching none, emit one modified event and delegate to
the pure tree-vs-tree differ against the first candidate.  Otherwise fetch
every candidate tree and delegate to the working-copy directory differ. -/
def runForScmTree (ctx : DiffContext) (path : Path) (e0 : TreeEntry)
    (rest : List TreeEntry) (ignore : GitIgnoreStack) (isIgnored : Bool)
    (inode : InodeNode) : RunOutput :=
  match inode with
  | .file fty _ =>
      let headEvents :=
        if isIgnored then
          if ctx.listIgnored then [DiffEvent.ignoredPath path fty] else []
        else
          [DiffEvent.addedPath path fty]
      let shapeEvents := headEvents ++ [DiffEvent.removedPath path e0.dtype]
      match ctx.getTree e0.id with
      | .error e =>
          { events := shapeEvents, ops := [.getTree e0.id],
            delegations := [], result := .error (.store e) }
      | .ok t =>
          { events := shapeEvents ++ removedTreeEvents path t,
            ops := [.getTree e0.id], delegations := [], result := .ok () }
  | .dir st =>
      match st with
      | .unmaterialized treeId =>
          if (e0 :: rest).any (fun e => ctx.areObjectsKnownIdentical treeId e.id) then
            { events := [], ops := [], delegations := [], result := .ok () }
          else
            { events := [DiffEvent.modifiedPath path e0.dtype], ops := [],
              delegations := [.diffTrees path e0.id treeId], result := .ok () }
      | .materialized =>
          let entries := e0 :: rest
          let fetchOps := entries.map (fun e => StoreOp.getTree e.id)
          match collectAll (entries.map (fun e => ctx.getTree e.id)) with
          | .error e =>
              { events := [], ops := fetchOps, delegations := [],
                result := .error (.store e) }
          | .ok trees =>
              { events := [], ops := fetchOps,
                delegations := [.treeDiff path trees ignore isIgnored],
                result := .ok () }

/-- Translation of `ModifiedDiffEntry::runForScmBlob`: the snapshot side's first candidate
is a file.  If the live node is a directory, report the shape change
(removed with the first candidate's filtered directory-entry type, added
with the live node's type) and, unless ignored with `listIgnored` off,
delegate to the working-copy directory differ with no snapshot trees.  If
the live node is a file, compare it against the first candidate's
(address, filtered type) pair and emit modified on mismatch. -/
def runForScmBlob (ctx : DiffContext) (path : Path) (e0 : TreeEntry)
    (ignore : GitIgnoreStack) (isIgnored : Bool) (inode : InodeNode) :
    RunOutput :=
  match inode with
  | .dir _ =>
      let shapeEvents :=
        [DiffEvent.removedPath path
           (filteredEntryDtype e0.dtype ctx.windowsSymlinksEnabled),
         DiffEvent.addedPath path inode.getType]
      if isIgnored ∧ ¬ ctx.listIgnored then
        { events := shapeEvents, ops := [], delegations := [],
          result := .ok () }
      else
        { events := shapeEvents, ops := [],
          delegations := [.treeDiff path [] ignore isIgnored],
          result := .ok () }
  | .file fty isSame =>
      let cmpTy := filteredEntryType e0.ty ctx.windowsSymlinksEnabled
      match isSame e0.id cmpTy with
      | .error e =>
          { events := [], ops := [.isSameAs e0.id cmpTy], delegations := [],
            result := .error (.store e) }
      | .ok true =>
          { events := [], ops := [.isSameAs e0.id cmpTy], delegations := [],
            result := .ok () }
      | .ok false =>
          { events := [DiffEvent.modifiedPath path fty],
            ops := [.isSameAs e0.id cmpTy], delegations := [],
            result := .ok () }

/-- Translation of `ModifiedDiffEntry::run`: once the live node resolves, dispatch by the
first candidate snapshot entry's declared kind. -/
def modifiedRun (ctx : DiffContext) (path : Path)
    (scmEntries : List TreeEntry) (ignore : GitIgnoreStack)
    (isIgnored : Bool) (resolved : Except StoreError InodeNode) : RunOutput :=
  match resolved with
  | .error e => errorOutput (.store e)
  | .ok inode =>
      match scmEntries with
      | [] => errorOutput .indexOutOfBounds
      | e0 :: rest =>
          if e0.isTree then
            runForScmTree ctx path e0 rest ignore isIgnored inode
          else
            runForScmBlob ctx path e0 ignore isIgnored inode

/-- The deferred diff task variants (`DeferredDiffEntry` subclasses), each
carrying its path and the state its `run` resumes from. -/
inductive Task where
  | untracked (path : Path) (resolved : Except StoreError InodeNode)
      (ignore : GitIgnoreStack) (isIgnored : Bool)
  | modified (path : Path) (scmEntries : List TreeEntry)
      (resolved : Except StoreError InodeNode) (ignore : GitIgnoreStack)
      (isIgnored : Bool)
  | modifiedBlob (path : Path) (scmEntry : TreeEntry)
      (currentBlobId : ObjectId) (currentDType : Dtype)
  | modifiedScm (path : Path) (scmId wdId : ObjectId)
  | addedScm (path : Path) (wdId : ObjectId)
  | removedScm (path : Path) (scmId : ObjectId)

/-- The single `run` operation of every task variant. -/
def runTask (ctx : DiffContext) : Task → RunOutput
  | .untracked path resolved ignore isIgnored =>
      match resolved with
      | .error e => errorOutput (.store e)
      | .ok (.file _ _) =>
          errorOutput
            (.internalBug "UntrackedDiffEntry should only used with tree inodes")
      | .ok (.dir _) =>
          { events := [], ops := [],
            delegations := [.treeDiff path [] ignore isIgnored],
            result := .ok () }
  | .modified path scmEntries resolved ignore isIgnored =>
      modifiedRun ctx path scmEntries ignore isIgnored resolved
  | .modifiedBlob path scmEntry currentBlobId currentDType =>
      match ctx.areBlobsEqual scmEntry.id currentBlobId with
      | .error e =>
          { events := [], ops := [.areBlobsEqual scmEntry.id currentBlobId],
            delegations := [], result := .error (.store e) }
      | .ok true =>
          { events := [], ops := [.areBlobsEqual scmEntry.id currentBlobId],
            delegations := [], result := .ok () }
      | .ok false =>
          { events := [DiffEvent.modifiedPath path currentDType],
            ops := [.areBlobsEqual scmEntry.id currentBlobId],
            delegations := [], result := .ok () }
  | .modifiedScm path scmId wdId =>
      { events := [], ops := [], delegations := [.diffTrees path scmId wdId],
        result := .ok () }
  | .addedScm path wdId =>
      { events := [], ops := [], delegations := [.diffAddedTree path wdId],
        result := .ok () }
  | .removedScm path scmId =>
      match ctx.getTree scmId with
      | .error e =>
          { events := [], ops := [.getTree scmId], delegations := [],
            result := .error (.store e) }
      | .ok t =>
          { events := removedTreeEvents path t, ops := [.getTree scmId],
            delegations := [], result := .ok () }

/-- Translation of `DeferredDiffEntry::createUntrackedEntry`. -/
def createUntrackedEntry (path : Path) (resolved : Except StoreError InodeNode)
    (ignore : GitIgnoreStack) (isIgnored : Bool) : Task :=
  .untracked path resolved ignore isIgnored

/-- Translation of `DeferredDiffEntry::createModifiedEntry`: the `XCHECK_GT` on the number
of candidate entries makes construction with an empty candidate list a
loud failure. -/
def createModifiedEntry (path : Path) (scmEntries : List TreeEntry)
    (resolved : Except StoreError InodeNode) (ignore : GitIgnoreStack)
    (isIgnored : Bool) : Except DiffError Task :=
  if scmEntries.isEmpty then
    .error (.internalBug "scmEntries must have values")
  else
    .ok (.modified path scmEntries resolved ignore isIgnored)

/-- The path a task owns. -/
def Task.path : Task → Path
  | .untracked p _ _ _ => p
  | .modified p _ _ _ _ => p
  | .modifiedBlob p _ _ _ => p
  | .modifiedScm p _ _ => p
  | .addedScm p _ => p
  | .removedScm p _ => p

/-- A `ModifiedAgainstLiveNode` task whose resolved live node disagrees in
shape with the first candidate snapshot entry (the type-mismatch case). -/
def Task.shapeChange : Task → Prop
  | .modified _ (e0 :: _) (.ok (.file _ _)) _ _ => e0.isTree = true
  | .modified _ (e0 :: _) (.ok (.dir _)) _ _ => e0.isTree = false
  | _ => False

/-- A `ModifiedAgainstLiveNode` task whose snapshot side and resolved live
node are both directories. -/
def Task.bothDirs : Task → Prop
  | .modified _ (e0 :: _) (.ok (.dir _)) _ _ => e0.isTree = true
  | _ => False

/-- One scheduler step: accumulate the events a task delivered through the
shared sink, and keep the first failure as the overall run's outcome. -/
def runStep (ctx : DiffContext) (acc : List DiffEvent × Except DiffError Unit)
    (t : Task) : List DiffEvent × Except DiffError Unit :=
  let out := runTask ctx t
  (acc.1 ++ out.events,
   match acc.2 with
   | .error e => .error e
   | .ok _ => out.result)

/-- The scheduler's composition over one completion order of the tasks:
events accumulate through the shared sink; the first failure fails the
overall run while the remaining tasks still contribute their events
(no rollback). -/
def runAll (ctx : DiffContext) (tasks : List Task) :
    List DiffEvent × Except DiffError Unit :=
  tasks.foldl (runStep ctx) ([], .ok ())

/-- A small snapshot tree used to exercise the claims on concrete inputs. -/
def sampleTree : SnapTree :=
  [.blob "a" .Regular, .dir "s" [.blob "b" .Regular]]

/-- A concrete context: the identity oracle is address equality, and the
store serves `sampleTree` for every address. -/
def sampleCtx : DiffContext where
  listIgnored := false
  windowsSymlinksEnabled := true
  areObjectsKnownIdentical := fun a b => a == b
  areBlobsEqual := fun a b => .ok (a == b)
  getTree := fun _ => .ok sampleTree

/-- A concrete context without symlink support and with ignored-path
listing switched on. -/
def sampleCtxNoSym : DiffContext :=
  { sampleCtx with windowsSymlinksEnabled := false, listIgnored := true }

/-- A concrete both-directories task: a snapshot-side tree candidate and
an unmaterialized live directory whose stored address matches no
candidate. -/
def sampleBothDirsTask : Task :=
  .modified ["d"] [⟨"d", .Tree, 1⟩] (.ok (.dir (.unmaterialized 2))) none false

/-- A concrete context whose store fails every asynchronous operation. -/
def failingCtx : DiffContext where
  listIgnored := true
  windowsSymlinksEnabled := true
  areObjectsKnownIdentical := fun _ _ => false
  areBlobsEqual := fun _ _ => .error 42
  getTree := fun _ => .error 7

/-- A candidate entry's directory-entry type is `Dir` when it is a tree. -/
theorem TreeEntry.dtype_of_isTree {e : TreeEntry} (h : e.isTree = true) :
    e.dtype = .Dir := by
  have hty : e.ty = .Tree := by simpa [TreeEntry.isTree] using h
  simp [TreeEntry.dtype, hty, TreeEntryType.toDtype]

/-- Filtering the directory tag is the identity. -/
theorem filteredEntryDtype_dir (b : Bool) :
    filteredEntryDtype .Dir b = .Dir := by
  simp [filteredEntryDtype]

/-- The removed-tree recursion emits exactly one removed event per
descendant of the snapshot tree, in recursion order. -/
theorem removedTreeEvents_eq_map (base : Path) (t : List SnapEntryNode) :
    removedTreeEvents base t
      = (descendants base t).map (fun pd => DiffEvent.removedPath pd.1 pd.2) := by
  induction base, t using removedTreeEvents.induct with
  | case1 base => simp [removedTreeEvents, descendants]
  | case2 base n d rest ih => simp [removedTreeEvents, descendants, ih]
  | case3 base n sub rest ih1 ih2 =>
      simp [removedTreeEvents, descendants, ih1, ih2]

/-- Every event of the removed-tree recursion lies strictly below the base
path. -/
theorem removedTreeEvents_path_longer (base : Path) (t : List SnapEntryNode) :
    ∀ ev ∈ removedTreeEvents base t, base.length < ev.path.length := by
  induction base, t using removedTreeEvents.induct with
  | case1 base => simp [removedTreeEvents]
  | case2 base n d rest ih =>
      intro ev hev
      simp only [removedTreeEvents] at hev
      rcases List.mem_cons.mp hev with hev | hev
      · subst hev; simp [DiffEvent.path]
      · exact ih ev hev
  | case3 base n sub rest ih1 ih2 =>
      intro ev hev
      simp only [removedTreeEvents] at hev
      rcases List.mem_cons.mp hev with hev | hev
      · subst hev; simp [DiffEvent.path]
      · rcases List.mem_append.mp hev with hev | hev
        · have := ih1 ev hev
          simp only [List.length_append, List.length_cons, List.length_nil] at this
          omega
        · exact ih2 ev hev

/-- The first component of the scheduler fold is the concatenation of each
task's events after the starting accumulator. -/
theorem runAll_foldl_events (ctx : DiffContext) :
    ∀ (tasks : List Task) (acc : List DiffEvent × Except DiffError Unit),
      (tasks.foldl (runStep ctx) acc).1
        = acc.1 ++ (tasks.map (fun t => (runTask ctx t).events)).flatten := by
  intro tasks
  induction tasks with
  | nil => intro acc; simp
  | cons t rest ih =>
      intro acc
      simp only [List.foldl_cons, List.map_cons, List.flatten_cons, ih, runStep]
      simp [List.append_assoc]

/-- The overall run's event stream is the concatenation of each task's
events. -/
theorem runAll_events (ctx : DiffContext) (tasks : List Task) :
    (runAll ctx tasks).1
      = (tasks.map (fun t => (runTask ctx t).events)).flatten := by
  simpa using runAll_foldl_events ctx tasks ([], .ok ())

/-- C1: for a ModifiedAgainstLiveNode task whose snapshot side is a
directory and whose live node resolves to an unmaterialized directory, if
the live directory's stored content address is provably identical to the
address of any one of the candidate snapshot entries (not only the first),
`run` emits no events, performs no store operations and delegates no
further diffing, resolving successfully. -/
theorem unmaterialized_dir_match_short_circuit
    (ctx : DiffContext) (path : Path) (e0 : TreeEntry) (rest : List TreeEntry)
    (ignore : GitIgnoreStack) (isIgnored : Bool) (treeId : ObjectId)
    (htree : e0.isTree = true)
    (hmatch : ∃ e ∈ e0 :: rest, ctx.areObjectsKnownIdentical treeId e.id = true) :
    runTask ctx
        (.modified path (e0 :: rest) (.ok (.dir (.unmaterialized treeId)))
          ignore isIgnored)
      = { events := [], ops := [], delegations := [], result := .ok () } := by
  have hany :
      (e0 :: rest).any (fun e => ctx.areObjectsKnownIdentical treeId e.id) = true := by
    rcases hmatch with ⟨e, he, hid⟩
    exact List.any_eq_true.mpr ⟨e, he, hid⟩
  simp [runTask, modifiedRun, runForScmTree, htree, hany]

/-- Witness for C1 at a concrete input: the second of two candidates
matches the live directory's stored address. -/
theorem unmaterialized_dir_match_short_circuit_witness :
    (⟨"d", .Tree, 1⟩ : TreeEntry).isTree = true ∧
    (∃ e ∈ [(⟨"d", .Tree, 1⟩ : TreeEntry), ⟨"d", .Tree, 2⟩],
        sampleCtx.areObjectsKnownIdentical 2 e.id = true) ∧
    runTask sampleCtx
        (.modified ["d"] [⟨"d", .Tree, 1⟩, ⟨"d", .Tree, 2⟩]
          (.ok (.dir (.unmaterialized 2))) none false)
      = { events := [], ops := [], delegations := [], result := .ok () } :=
  ⟨rfl, ⟨⟨"d", .Tree, 2⟩, by simp, rfl⟩,
    unmaterialized_dir_match_short_circuit sampleCtx ["d"] ⟨"d", .Tree, 1⟩
      [⟨"d", .Tree, 2⟩] none false 2 rfl
      ⟨⟨"d", .Tree, 2⟩, by simp, rfl⟩⟩

/-- C5: for a ModifiedAgainstLiveNode task whose snapshot side is a
directory and whose live node resolves to an unmaterialized directory
matching none of the candidate addresses, `run` emits exactly one
modified event for the directory path and delegates to the pure
tree-vs-tree differ between the first candidate's address and the live
directory's stored address. -/
theorem unmaterialized_dir_no_match_coarse_modified
    (ctx : DiffContext) (path : Path) (e0 : TreeEntry) (rest : List TreeEntry)
    (ignore : GitIgnoreStack) (isIgnored : Bool) (treeId : ObjectId)
    (htree : e0.isTree = true)
    (hnone : ∀ e ∈ e0 :: rest, ctx.areObjectsKnownIdentical treeId e.id = false) :
    runTask ctx
        (.modified path (e0 :: rest) (.ok (.dir (.unmaterialized treeId)))
          ignore isIgnored)
      = { events := [DiffEvent.modifiedPath path e0.dtype], ops := [],
          delegations := [.diffTrees path e0.id treeId], result := .ok () } := by
  have hany :
      (e0 :: rest).any (fun e => ctx.areObjectsKnownIdentical treeId e.id) = false := by
    simp only [List.any_eq_false]
    intro e he
    simp [hnone e he]
  simp [runTask, modifiedRun, runForScmTree, htree, hany]

/-- Witness for C5 at a concrete input. -/
theorem unmaterialized_dir_no_match_coarse_modified_witness :
    (⟨"d", .Tree, 1⟩ : TreeEntry).isTree = true ∧
    (∀ e ∈ [(⟨"d", .Tree, 1⟩ : TreeEntry)],
        sampleCtx.areObjectsKnownIdentical 2 e.id = false) ∧
    runTask sampleCtx
        (.modified ["d"] [⟨"d", .Tree, 1⟩] (.ok (.dir (.unmaterialized 2)))
          none false)
      = { events := [DiffEvent.modifiedPath ["d"] .Dir], ops := [],
          delegations := [.diffTrees ["d"] 1 2], result := .ok () } :=
  ⟨rfl, by intro e he; simp at he; subst he; rfl,
    unmaterialized_dir_no_match_coarse_modified sampleCtx ["d"] ⟨"d", .Tree, 1⟩
      [] none false 2 rfl (by intro e he; simp at he; subst he; rfl)⟩

/-- C2: for a ModifiedAgainstLiveNode task whose snapshot side is a
directory and whose live node resolves to a file or symlink, `run` emits:
one added event with the live node's type if not ignored, or one ignored
event if ignored and `listIgnored` is on, or neither if ignored and
`listIgnored` is off; then one removed event using the first candidate's
directory-entry type; then one removed event for every descendant of the
first candidate's snapshot tree, via the pure removed-tree recursion. -/
theorem tree_vs_file_shape_change_events
    (ctx : DiffContext) (path : Path) (e0 : TreeEntry) (rest : List TreeEntry)
    (ignore : GitIgnoreStack) (isIgnored : Bool) (fty : Dtype)
    (isSame : ObjectId → TreeEntryType → Except StoreError Bool) (t : SnapTree)
    (htree : e0.isTree = true)
    (hfetch : ctx.getTree e0.id = .ok t) :
    runTask ctx
        (.modified path (e0 :: rest) (.ok (.file fty isSame)) ignore isIgnored)
      = { events :=
            (if isIgnored then
               if ctx.listIgnored then [DiffEvent.ignoredPath path fty] else []
             else [DiffEvent.addedPath path fty])
            ++ [DiffEvent.removedPath path e0.dtype]
            ++ (descendants path t).map (fun pd => DiffEvent.removedPath pd.1 pd.2),
          ops := [.getTree e0.id], delegations := [], result := .ok () } := by
  simp [runTask, modifiedRun, runForScmTree, htree, hfetch,
    removedTreeEvents_eq_map]

/-- Witness for C2 at a concrete input: an ignored live file replacing a
snapshot directory with two descendant levels, with `listIgnored` on. -/
theorem tree_vs_file_shape_change_events_witness :
    (⟨"d", .Tree, 1⟩ : TreeEntry).isTree = true ∧
    sampleCtxNoSym.getTree 1 = .ok sampleTree ∧
    runTask sampleCtxNoSym
        (.modified ["d"] [⟨"d", .Tree, 1⟩]
          (.ok (.file .Regular (fun _ _ => .ok true))) none true)
      = { events :=
            (if true then
               if sampleCtxNoSym.listIgnored then
                 [DiffEvent.ignoredPath ["d"] .Regular]
               else []
             else [DiffEvent.addedPath ["d"] .Regular])
            ++ [DiffEvent.removedPath ["d"] (⟨"d", .Tree, 1⟩ : TreeEntry).dtype]
            ++ (descendants ["d"] sampleTree).map
                 (fun pd => DiffEvent.removedPath pd.1 pd.2),
          ops := [.getTree 1], delegations := [], result := .ok () } :=
  ⟨rfl, rfl,
    tree_vs_file_shape_change_events sampleCtxNoSym ["d"] ⟨"d", .Tree, 1⟩ []
      none true .Regular (fun _ _ => .ok true) sampleTree rfl rfl⟩

/-- C4: for a ModifiedAgainstLiveNode task whose snapshot side is a file
and whose live node resolves to a file, modification is judged solely
against the first candidate's (address, filtered type) pair: on mismatch
`run` emits exactly one modified event with the live file's type, on match
it emits nothing, and the output does not depend on any further
candidates. -/
theorem file_vs_file_first_candidate_only
    (ctx : DiffContext) (path : Path) (e0 : TreeEntry) (rest : List TreeEntry)
    (ignore : GitIgnoreStack) (isIgnored : Bool) (fty : Dtype)
    (isSame : ObjectId → TreeEntryType → Except StoreError Bool)
    (hblob : e0.isTree = false) :
    (isSame e0.id (filteredEntryType e0.ty ctx.windowsSymlinksEnabled) = .ok false →
      runTask ctx
          (.modified path (e0 :: rest) (.ok (.file fty isSame)) ignore isIgnored)
        = { events := [DiffEvent.modifiedPath path fty],
            ops := [.isSameAs e0.id (filteredEntryType e0.ty ctx.windowsSymlinksEnabled)],
            delegations := [], result := .ok () }) ∧
    (isSame e0.id (filteredEntryType e0.ty ctx.windowsSymlinksEnabled) = .ok true →
      runTask ctx
          (.modified path (e0 :: rest) (.ok (.file fty isSame)) ignore isIgnored)
        = { events := [],
            ops := [.isSameAs e0.id (filteredEntryType e0.ty ctx.windowsSymlinksEnabled)],
            delegations := [], result := .ok () }) ∧
    (∀ rest' : List TreeEntry,
      runTask ctx
          (.modified path (e0 :: rest') (.ok (.file fty isSame)) ignore isIgnored)
        = runTask ctx
            (.modified path (e0 :: rest) (.ok (.file fty isSame)) ignore isIgnored)) := by
  refine ⟨fun hdiff => ?_, fun hsame => ?_, fun rest' => ?_⟩
  · simp [runTask, modifiedRun, runForScmBlob, hblob, hdiff]
  · simp [runTask, modifiedRun, runForScmBlob, hblob, hsame]
  · simp [runTask, modifiedRun, hblob]

/-- Witness for C4 at a concrete input: two candidates with different
addresses; the comparison consults only the first and reports modified. -/
theorem file_vs_file_first_candidate_only_witness :
    (⟨"f", .RegularFile, 3⟩ : TreeEntry).isTree = false ∧
    ((fun i _ => .ok (decide (i = 9)) :
        ObjectId → TreeEntryType → Except StoreError Bool) 3
      (filteredEntryType .RegularFile sampleCtx.windowsSymlinksEnabled)
        = .ok false) ∧
    runTask sampleCtx
        (.modified ["f"] [⟨"f", .RegularFile, 3⟩, ⟨"f", .RegularFile, 9⟩]
          (.ok (.file .Regular (fun i _ => .ok (decide (i = 9))))) none false)
      = { events := [DiffEvent.modifiedPath ["f"] .Regular],
          ops := [.isSameAs 3 (filteredEntryType .RegularFile
            sampleCtx.windowsSymlinksEnabled)],
          delegations := [], result := .ok () } :=
  ⟨rfl, rfl,
    (file_vs_file_first_candidate_only sampleCtx ["f"] ⟨"f", .RegularFile, 3⟩
      [⟨"f", .RegularFile, 9⟩] none false .Regular
      (fun i _ => .ok (decide (i = 9))) rfl).1 rfl⟩

/-- C3 counterexample: snapshot side a file, live node a directory, the
path ignored and `listIgnored` off (`sampleCtx.listIgnored = false`,
task's `isIgnored = true`): the added event for the live directory is
still emitted — only the recursion into the directory's contents is
suppressed. -/
theorem blob_vs_dir_ignored_added_still_emitted :
    sampleCtx.listIgnored = false ∧
    (runTask sampleCtx
        (.modified ["p"] [⟨"p", .RegularFile, 3⟩] (.ok (.dir .materialized))
          none true)).events
      = [DiffEvent.removedPath ["p"] .Regular, DiffEvent.addedPath ["p"] .Dir] ∧
    (runTask sampleCtx
        (.modified ["p"] [⟨"p", .RegularFile, 3⟩] (.ok (.dir .materialized))
          none true)).delegations.length = 0 :=
  ⟨rfl, rfl, rfl⟩

/-- C3 amended: for a ModifiedAgainstLiveNode task whose snapshot side is
a file and whose live node resolves to a directory, `run` emits one
removed event using the filtered directory-entry type of the first
candidate, then one added event with the live node's type
*unconditionally* (even when the path is ignored and `listIgnored` is
off), and then delegates the added-tree recursion into the directory's
current contents unless the path is ignored and `listIgnored` is off. -/
theorem blob_vs_dir_shape_change_events
    (ctx : DiffContext) (path : Path) (e0 : TreeEntry) (rest : List TreeEntry)
    (ignore : GitIgnoreStack) (isIgnored : Bool) (st : DirState)
    (hblob : e0.isTree = false) :
    runTask ctx
        (.modified path (e0 :: rest) (.ok (.dir st)) ignore isIgnored)
      = { events :=
            [DiffEvent.removedPath path
               (filteredEntryDtype e0.dtype ctx.windowsSymlinksEnabled),
             DiffEvent.addedPath path .Dir],
          ops := [],
          delegations :=
            if isIgnored ∧ ¬ ctx.listIgnored then []
            else [.treeDiff path [] ignore isIgnored],
          result := .ok () } := by
  simp only [runTask, modifiedRun, hblob, Bool.false_eq_true, if_false,
    runForScmBlob, InodeNode.getType]
  split <;> rfl

/-- Witness for C3 amended at a concrete input: the ignored,
`listIgnored`-off configuration, where the delegation list is empty but
both events appear. -/
theorem blob_vs_dir_shape_change_events_witness :
    (⟨"p", .Symlink, 3⟩ : TreeEntry).isTree = false ∧
    runTask sampleCtxNoSym
        (.modified ["p"] [⟨"p", .Symlink, 3⟩] (.ok (.dir .materialized))
          none true)
      = { events :=
            [DiffEvent.removedPath ["p"]
               (filteredEntryDtype (⟨"p", .Symlink, 3⟩ : TreeEntry).dtype
                 sampleCtxNoSym.windowsSymlinksEnabled),
             DiffEvent.addedPath ["p"] .Dir],
          ops := [],
          delegations :=
            if (true : Bool) ∧ ¬ sampleCtxNoSym.listIgnored then []
            else [.treeDiff ["p"] [] none true],
          result := .ok () } :=
  ⟨rfl,
    blob_vs_dir_shape_change_events sampleCtxNoSym ["p"] ⟨"p", .Symlink, 3⟩ []
      none true .materialized rfl⟩

/-- C6 counterexample: a ModifiedAgainstLiveNode task whose snapshot side
and live side are both directories (so not a type-mismatch case) — the
unmaterialized live directory matching no candidate — emits a single
coarse modified event whose path names a directory. -/
theorem coarse_modified_event_names_directory :
    Task.bothDirs
        (.modified ["d"] [⟨"d", .Tree, 1⟩] (.ok (.dir (.unmaterialized 2)))
          none false) ∧
    ¬ Task.shapeChange
        (.modified ["d"] [⟨"d", .Tree, 1⟩] (.ok (.dir (.unmaterialized 2)))
          none false) ∧
    (runTask sampleCtx
        (.modified ["d"] [⟨"d", .Tree, 1⟩] (.ok (.dir (.unmaterialized 2)))
          none false)).events
      = [DiffEvent.modifiedPath ["d"] .Dir] :=
  ⟨rfl, fun h => by simp [Task.shapeChange, TreeEntry.isTree] at h, rfl⟩

/-- C6 amended: every task run emits at most one event for the task's own
path, except in the type-mismatch (shape-change) case; and in the
both-directories case the only event ever emitted for the directory path
is the single coarse modified event of the unmaterialized-no-match
branch. -/
theorem run_own_path_event_discipline (ctx : DiffContext) (t : Task) :
    (((runTask ctx t).events.filter fun ev => decide (ev.path = t.path)).length ≤ 1
      ∨ t.shapeChange) ∧
    (t.bothDirs →
      ((runTask ctx t).events.filter fun ev => decide (ev.path = t.path)) = []
        ∨ ((runTask ctx t).events.filter fun ev => decide (ev.path = t.path))
            = [DiffEvent.modifiedPath t.path .Dir]) := by
  cases t with
  | untracked p resolved ignore isIgnored =>
      refine ⟨Or.inl ?_, fun h => h.elim⟩
      rcases resolved with e | inode
      · simp [runTask, errorOutput]
      · cases inode <;> simp [runTask, errorOutput]
  | modified p scmEntries resolved ignore isIgnored =>
      rcases resolved with e | inode
      · refine ⟨Or.inl (by simp [runTask, modifiedRun, errorOutput]), fun h => ?_⟩
        cases scmEntries <;> exact h.elim
      · cases scmEntries with
        | nil => exact ⟨Or.inl (by simp [runTask, modifiedRun, errorOutput]), fun h => h.elim⟩
        | cons e0 rest =>
            cases inode with
            | file fty isSame =>
                by_cases htree : e0.isTree = true
                · exact ⟨Or.inr htree, fun h => h.elim⟩
                · have hb : e0.isTree = false := by
                    simpa using htree
                  refine ⟨Or.inl (le_trans (List.length_filter_le _ _) ?_), fun h => h.elim⟩
                  cases hs : isSame e0.id (filteredEntryType e0.ty ctx.windowsSymlinksEnabled) with
                  | error e => simp [runTask, modifiedRun, runForScmBlob, hb, hs]
                  | ok same => cases same <;> simp [runTask, modifiedRun, runForScmBlob, hb, hs]
            | dir st =>
                by_cases htree : e0.isTree = true
                · cases st with
                  | unmaterialized tid =>
                      by_cases hany :
                          (e0 :: rest).any
                            (fun e => ctx.areObjectsKnownIdentical tid e.id) = true
                      · constructor
                        · exact Or.inl (by simp [runTask, modifiedRun, runForScmTree, htree, hany])
                        · intro _
                          exact Or.inl (by simp [runTask, modifiedRun, runForScmTree, htree, hany])
                      · have hany' :
                            (e0 :: rest).any
                              (fun e => ctx.areObjectsKnownIdentical tid e.id) = false := by
                          simpa using hany
                        have hdt : e0.dtype = .Dir := TreeEntry.dtype_of_isTree htree
                        constructor
                        · refine Or.inl (le_trans (List.length_filter_le _ _) ?_)
                          simp [runTask, modifiedRun, runForScmTree, htree, hany']
                        · intro _
                          exact Or.inr (by
                            simp [runTask, modifiedRun, runForScmTree, htree, hany', hdt,
                              DiffEvent.path, Task.path])
                  | materialized =>
                      constructor
                      · refine Or.inl (le_trans (List.length_filter_le _ _) ?_)
                        cases hc : collectAll
                            (ctx.getTree e0.id
                              :: List.map (fun e => ctx.getTree e.id) rest) with
                        | error e => simp [runTask, modifiedRun, runForScmTree, htree, hc]
                        | ok trees => simp [runTask, modifiedRun, runForScmTree, htree, hc]
                      · intro _
                        refine Or.inl ?_
                        cases hc : collectAll
                            (ctx.getTree e0.id
                              :: List.map (fun e => ctx.getTree e.id) rest) with
                        | error e => simp [runTask, modifiedRun, runForScmTree, htree, hc]
                        | ok trees => simp [runTask, modifiedRun, runForScmTree, htree, hc]
                · have hb : e0.isTree = false := by
                    simpa using htree
                  refine ⟨Or.inr hb, fun h => absurd h (by simp [Task.bothDirs, hb])⟩
  | modifiedBlob p scmEntry blobId d =>
      refine ⟨Or.inl (le_trans (List.length_filter_le _ _) ?_), fun h => h.elim⟩
      cases hb : ctx.areBlobsEqual scmEntry.id blobId with
      | error e => simp [runTask, hb]
      | ok eq => cases eq <;> simp [runTask, hb]
  | modifiedScm p scmId wdId =>
      exact ⟨Or.inl (by simp [runTask]), fun h => h.elim⟩
  | addedScm p wdId =>
      exact ⟨Or.inl (by simp [runTask]), fun h => h.elim⟩
  | removedScm p scmId =>
      refine ⟨Or.inl ?_, fun h => h.elim⟩
      cases hg : ctx.getTree scmId with
      | error e => simp [runTask, hg]
      | ok t =>
          have hnil :
              ((removedTreeEvents p t).filter fun ev => decide (ev.path = p)) = [] := by
            refine List.filter_eq_nil_iff.mpr ?_
            intro ev hev
            have hlen := removedTreeEvents_path_longer p t ev hev
            simp only [decide_eq_true_eq]
            intro hp
            rw [hp] at hlen
            omega
          simp [runTask, hg, Task.path, hnil]

/-- Witness for C6 amended at a concrete input: the coarse-modified case,
with the both-directories hypothesis discharged. -/
theorem run_own_path_event_discipline_witness :
    ((((runTask sampleCtx sampleBothDirsTask).events.filter
          (fun ev => decide (ev.path = sampleBothDirsTask.path))).length ≤ 1
        ∨ sampleBothDirsTask.shapeChange) ∧
      (((runTask sampleCtx sampleBothDirsTask).events.filter
          (fun ev => decide (ev.path = sampleBothDirsTask.path))) = []
        ∨ ((runTask sampleCtx sampleBothDirsTask).events.filter
            (fun ev => decide (ev.path = sampleBothDirsTask.path)))
          = [DiffEvent.modifiedPath sampleBothDirsTask.path .Dir])) :=
  ⟨(run_own_path_event_discipline sampleCtx sampleBothDirsTask).1,
   (run_own_path_event_discipline sampleCtx sampleBothDirsTask).2 rfl⟩

/-- C7: in both dispatch paths of a ModifiedAgainstLiveNode run, every
removed event emitted for the task's path carries the filtered
directory-entry type of the first candidate, every content-identity
comparison uses the first candidate's address and filtered entry type,
and in the directory-sided dispatch every modified event carries the
filtered directory-entry type of the first candidate. -/
theorem modified_run_uses_filtered_candidate_types
    (ctx : DiffContext) (path : Path) (e0 : TreeEntry) (rest : List TreeEntry)
    (ignore : GitIgnoreStack) (isIgnored : Bool)
    (resolved : Except StoreError InodeNode) :
    (∀ d, DiffEvent.removedPath path d
        ∈ (runTask ctx (.modified path (e0 :: rest) resolved ignore isIgnored)).events →
        d = filteredEntryDtype e0.dtype ctx.windowsSymlinksEnabled) ∧
    (∀ a ty, StoreOp.isSameAs a ty
        ∈ (runTask ctx (.modified path (e0 :: rest) resolved ignore isIgnored)).ops →
        a = e0.id ∧ ty = filteredEntryType e0.ty ctx.windowsSymlinksEnabled) ∧
    (e0.isTree = true → ∀ p d, DiffEvent.modifiedPath p d
        ∈ (runTask ctx (.modified path (e0 :: rest) resolved ignore isIgnored)).events →
        d = filteredEntryDtype e0.dtype ctx.windowsSymlinksEnabled) := by
  rcases resolved with e | inode
  · refine ⟨?_, ?_, ?_⟩ <;> simp [runTask, modifiedRun, errorOutput]
  by_cases htree : e0.isTree = true
  · have hdt : e0.dtype = .Dir := TreeEntry.dtype_of_isTree htree
    cases inode with
    | file fty isSame =>
        cases hg : ctx.getTree e0.id with
        | error e =>
            refine ⟨?_, ?_, ?_⟩
            · intro d hd
              simp only [runTask, modifiedRun, runForScmTree, htree, if_pos rfl, hg] at hd
              have : d = e0.dtype := by
                rcases List.mem_append.mp hd with hd | hd
                · split at hd <;> simp_all
                · simpa using hd
              simp [this, hdt, filteredEntryDtype_dir]
            · intro a ty hty
              simp only [runTask, modifiedRun, runForScmTree, htree, if_pos rfl, hg] at hty
              simp at hty
            · intro _ p d hd
              simp only [runTask, modifiedRun, runForScmTree, htree, if_pos rfl, hg] at hd
              rcases List.mem_append.mp hd with hd | hd
              · split at hd <;> simp_all
              · simp at hd
        | ok t =>
            refine ⟨?_, ?_, ?_⟩
            · intro d hd
              simp only [runTask, modifiedRun, runForScmTree, htree, if_pos rfl, hg] at hd
              have : d = e0.dtype := by
                rcases List.mem_append.mp hd with hd | hd
                · rcases List.mem_append.mp hd with hd | hd
                  · split at hd <;> simp_all
                  · simpa using hd
                · have hlen := removedTreeEvents_path_longer path t _ hd
                  simp [DiffEvent.path] at hlen
              simp [this, hdt, filteredEntryDtype_dir]
            · intro a ty hty
              simp only [runTask, modifiedRun, runForScmTree, htree, if_pos rfl, hg] at hty
              simp at hty
            · intro _ p d hd
              simp only [runTask, modifiedRun, runForScmTree, htree, if_pos rfl, hg] at hd
              rcases List.mem_append.mp hd with hd | hd
              · rcases List.mem_append.mp hd with hd | hd
                · split at hd <;> simp_all
                · simp at hd
              · rw [removedTreeEvents_eq_map] at hd
                rcases List.mem_map.mp hd with ⟨pd, hpd, hev⟩
                exact absurd hev (by simp)
    | dir st =>
        cases st with
        | unmaterialized tid =>
            by_cases hany :
                (e0 :: rest).any
                  (fun e => ctx.areObjectsKnownIdentical tid e.id) = true
            · refine ⟨?_, ?_, ?_⟩ <;>
                simp [runTask, modifiedRun, runForScmTree, htree, hany]
            · have hany' :
                  (e0 :: rest).any
                    (fun e => ctx.areObjectsKnownIdentical tid e.id) = false := by
                simpa using hany
              refine ⟨?_, ?_, ?_⟩
              · intro d hd
                simp [runTask, modifiedRun, runForScmTree, htree, hany'] at hd
              · intro a ty hty
                simp [runTask, modifiedRun, runForScmTree, htree, hany'] at hty
              · intro _ p d hd
                simp [runTask, modifiedRun, runForScmTree, htree, hany'] at hd
                simp [hd.2, hdt, filteredEntryDtype_dir]
        | materialized =>
            cases hc : collectAll
                (ctx.getTree e0.id :: List.map (fun e => ctx.getTree e.id) rest) with
            | error e =>
                refine ⟨?_, ?_, ?_⟩
                · intro d hd
                  simp [runTask, modifiedRun, runForScmTree, htree, hc] at hd
                · intro a ty hty
                  simp [runTask, modifiedRun, runForScmTree, htree, hc] at hty
                · intro _ p d hd
                  simp [runTask, modifiedRun, runForScmTree, htree, hc] at hd
            | ok trees =>
                refine ⟨?_, ?_, ?_⟩
                · intro d hd
                  simp [runTask, modifiedRun, runForScmTree, htree, hc] at hd
                · intro a ty hty
                  simp [runTask, modifiedRun, runForScmTree, htree, hc] at hty
                · intro _ p d hd
                  simp [runTask, modifiedRun, runForScmTree, htree, hc] at hd
  · have hb : e0.isTree = false := by simpa using htree
    cases inode with
    | file fty isSame =>
        cases hs : isSame e0.id (filteredEntryType e0.ty ctx.windowsSymlinksEnabled) with
        | error e =>
            refine ⟨?_, ?_, ?_⟩
            · intro d hd
              simp [runTask, modifiedRun, runForScmBlob, hb, hs] at hd
            · intro a ty hty
              simp only [runTask, modifiedRun, runForScmBlob, hb, Bool.false_eq_true,
                if_false, hs] at hty
              simpa using hty
            · intro ht
              rw [hb] at ht
              simp at ht
        | ok same =>
            cases same with
            | true =>
                refine ⟨?_, ?_, ?_⟩
                · intro d hd
                  simp [runTask, modifiedRun, runForScmBlob, hb, hs] at hd
                · intro a ty hty
                  simp only [runTask, modifiedRun, runForScmBlob, hb, Bool.false_eq_true,
                    if_false, hs] at hty
                  simpa using hty
                · intro ht
                  rw [hb] at ht
                  simp at ht
            | false =>
                refine ⟨?_, ?_, ?_⟩
                · intro d hd
                  simp [runTask, modifiedRun, runForScmBlob, hb, hs] at hd
                · intro a ty hty
                  simp only [runTask, modifiedRun, runForScmBlob, hb, Bool.false_eq_true,
                    if_false, hs] at hty
                  simpa using hty
                · intro ht
                  rw [hb] at ht
                  simp at ht
    | dir st =>
        refine ⟨?_, ?_, ?_⟩
        · intro d hd
          simp only [runTask, modifiedRun, runForScmBlob, hb, Bool.false_eq_true,
            if_false] at hd
          split at hd <;> simp_all
        · intro a ty hty
          simp only [runTask, modifiedRun, runForScmBlob, hb, Bool.false_eq_true,
            if_false] at hty
          split at hty <;> simp_all
        · intro ht
          rw [hb] at ht
          simp at ht

/-- Witness for C7 at a concrete input: a symlink candidate on a
configuration without symlink support; the removed event of the
file-vs-directory dispatch carries the filtered (plain-file) tag. -/
theorem modified_run_uses_filtered_candidate_types_witness :
    (DiffEvent.removedPath ["p"] .Regular
        ∈ (runTask sampleCtxNoSym
            (.modified ["p"] [⟨"p", .Symlink, 3⟩] (.ok (.dir .materialized))
              none true)).events) ∧
    Dtype.Regular
      = filteredEntryDtype (⟨"p", .Symlink, 3⟩ : TreeEntry).dtype
          sampleCtxNoSym.windowsSymlinksEnabled :=
  ⟨by decide,
    (modified_run_uses_filtered_candidate_types sampleCtxNoSym ["p"]
        ⟨"p", .Symlink, 3⟩ [] none true (.ok (.dir .materialized))).1 .Regular
      (by decide)⟩

/-- C8: constructing a ModifiedAgainstLiveNode task with an empty
candidate-entry list fails loudly as a construction error, and under the
precondition that the list is non-empty, a run's result never reflects an
out-of-bounds access to the first candidate entry. -/
theorem modified_entry_empty_fails_nonempty_in_bounds :
    (∀ (path : Path) (resolved : Except StoreError InodeNode)
        (ignore : GitIgnoreStack) (isIgnored : Bool),
      createModifiedEntry path [] resolved ignore isIgnored
        = .error (.internalBug "scmEntries must have values")) ∧
    (∀ (ctx : DiffContext) (path : Path) (scmEntries : List TreeEntry)
        (resolved : Except StoreError InodeNode) (ignore : GitIgnoreStack)
        (isIgnored : Bool), scmEntries ≠ [] →
      (runTask ctx (.modified path scmEntries resolved ignore isIgnored)).result
        ≠ .error .indexOutOfBounds) := by
  constructor
  · intro path resolved ignore isIgnored
    simp [createModifiedEntry]
  · intro ctx path scmEntries resolved ignore isIgnored hne
    cases scmEntries with
    | nil => exact absurd rfl hne
    | cons e0 rest =>
        rcases resolved with e | inode
        · simp [runTask, modifiedRun, errorOutput]
        by_cases htree : e0.isTree = true
        · cases inode with
          | file fty isSame =>
              cases hg : ctx.getTree e0.id with
              | error e => simp [runTask, modifiedRun, runForScmTree, htree, hg]
              | ok t => simp [runTask, modifiedRun, runForScmTree, htree, hg]
          | dir st =>
              cases st with
              | unmaterialized tid =>
                  by_cases hany :
                      (e0 :: rest).any
                        (fun e => ctx.areObjectsKnownIdentical tid e.id) = true
                  · simp [runTask, modifiedRun, runForScmTree, htree, hany]
                  · have hany' :
                        (e0 :: rest).any
                          (fun e => ctx.areObjectsKnownIdentical tid e.id) = false := by
                      simpa using hany
                    simp [runTask, modifiedRun, runForScmTree, htree, hany']
              | materialized =>
                  cases hc : collectAll
                      (ctx.getTree e0.id
                        :: List.map (fun e => ctx.getTree e.id) rest) with
                  | error e => simp [runTask, modifiedRun, runForScmTree, htree, hc]
                  | ok trees => simp [runTask, modifiedRun, runForScmTree, htree, hc]
        · have hb : e0.isTree = false := by simpa using htree
          cases inode with
          | file fty isSame =>
              cases hs : isSame e0.id
                  (filteredEntryType e0.ty ctx.windowsSymlinksEnabled) with
              | error e => simp [runTask, modifiedRun, runForScmBlob, hb, hs]
              | ok same => cases same <;> simp [runTask, modifiedRun, runForScmBlob, hb, hs]
          | dir st =>
              simp only [runTask, modifiedRun, hb, Bool.false_eq_true, if_false,
                runForScmBlob]
              split <;> simp

/-- Witness for C8 at a concrete input: a one-element candidate list. -/
theorem modified_entry_empty_fails_nonempty_in_bounds_witness :
    createModifiedEntry ["p"] [] (.ok (.dir .materialized)) none false
      = .error (.internalBug "scmEntries must have values") ∧
    ([(⟨"p", .RegularFile, 3⟩ : TreeEntry)] ≠ ([] : List TreeEntry) ∧
      (runTask sampleCtx
          (.modified ["p"] [⟨"p", .RegularFile, 3⟩] (.ok (.dir .materialized))
            none false)).result ≠ .error .indexOutOfBounds) :=
  ⟨modified_entry_empty_fails_nonempty_in_bounds.1 ["p"]
      (.ok (.dir .materialized)) none false,
    by simp,
    modified_entry_empty_fails_nonempty_in_bounds.2 sampleCtx ["p"]
      [⟨"p", .RegularFile, 3⟩] (.ok (.dir .materialized)) none false (by simp)⟩

/-- C9: a fetch or comparison failure inside `run` fails the task's result
handle with no local retry; no event is emitted by the failing task; in
particular a failing blob-equality check of a ModifiedBlobOnly task emits
no modified event and is consulted exactly once, and events already
emitted by earlier tasks of the run are preserved unchanged. -/
theorem fetch_failure_fails_task_no_events
    (ctx : DiffContext) (err : StoreError) :
    (∀ (path : Path) (scmEntry : TreeEntry) (blobId : ObjectId) (d : Dtype),
      ctx.areBlobsEqual scmEntry.id blobId = .error err →
        (runTask ctx (.modifiedBlob path scmEntry blobId d)).events = [] ∧
        (runTask ctx (.modifiedBlob path scmEntry blobId d)).result
          = .error (.store err) ∧
        (runTask ctx (.modifiedBlob path scmEntry blobId d)).ops
          = [.areBlobsEqual scmEntry.id blobId] ∧
        (∀ ts : List Task,
          (runAll ctx (ts ++ [.modifiedBlob path scmEntry blobId d])).1
            = (runAll ctx ts).1)) ∧
    (∀ (path : Path) (e0 : TreeEntry) (rest : List TreeEntry)
        (ignore : GitIgnoreStack) (isIgnored : Bool), e0.isTree = true →
      collectAll (ctx.getTree e0.id :: List.map (fun e => ctx.getTree e.id) rest)
          = .error err →
        (runTask ctx
            (.modified path (e0 :: rest) (.ok (.dir .materialized))
              ignore isIgnored)).events = [] ∧
        (runTask ctx
            (.modified path (e0 :: rest) (.ok (.dir .materialized))
              ignore isIgnored)).result = .error (.store err)) ∧
    (∀ (path : Path) (scmEntries : List TreeEntry) (ignore : GitIgnoreStack)
        (isIgnored : Bool),
      runTask ctx (.modified path scmEntries (.error err) ignore isIgnored)
        = errorOutput (.store err)) := by
  refine ⟨?_, ?_, ?_⟩
  · intro path scmEntry blobId d hfail
    refine ⟨by simp [runTask, hfail], by simp [runTask, hfail],
      by simp [runTask, hfail], ?_⟩
    intro ts
    have h := runAll_foldl_events ctx (ts ++ [.modifiedBlob path scmEntry blobId d])
      ([], .ok ())
    have h2 := runAll_foldl_events ctx ts ([], .ok ())
    simp only [runAll, h, h2, List.map_append, List.flatten_append]
    simp [runTask, hfail]
  · intro path e0 rest ignore isIgnored htree hc
    constructor
    · simp [runTask, modifiedRun, runForScmTree, htree, hc]
    · simp [runTask, modifiedRun, runForScmTree, htree, hc]
  · intro path scmEntries ignore isIgnored
    cases scmEntries <;> simp [runTask, modifiedRun]

/-- Witness for C9 at a concrete input: a context whose store fails every
operation, a ModifiedBlobOnly task after one successfully emitted earlier
task. -/
theorem fetch_failure_fails_task_no_events_witness :
    (failingCtx.areBlobsEqual 3 4 = .error 42 ∧
      (runTask failingCtx (.modifiedBlob ["q"] ⟨"q", .RegularFile, 3⟩ 4 .Regular)).events
        = [] ∧
      (runTask failingCtx (.modifiedBlob ["q"] ⟨"q", .RegularFile, 3⟩ 4 .Regular)).result
        = .error (.store 42) ∧
      (runTask failingCtx (.modifiedBlob ["q"] ⟨"q", .RegularFile, 3⟩ 4 .Regular)).ops
        = [.areBlobsEqual 3 4] ∧
      (runAll failingCtx
          ([.modifiedScm ["a"] 1 2] ++ [.modifiedBlob ["q"] ⟨"q", .RegularFile, 3⟩ 4 .Regular])).1
        = (runAll failingCtx [.modifiedScm ["a"] 1 2]).1) :=
  have base :=
    (fetch_failure_fails_task_no_events failingCtx 42).1 ["q"]
      ⟨"q", .RegularFile, 3⟩ 4 .Regular rfl
  ⟨rfl, base.1, base.2.1, base.2.2.1, base.2.2.2 [.modifiedScm ["a"] 1 2]⟩

/-- C10: an Untracked task whose live node resolves to a non-directory
fails with an internal-bug error and emits nothing; one that resolves to a
directory emits no event of its own and delegates to the directory diff
against an empty snapshot-tree list, passing through unchanged the ignore
stack and the ignored classification fixed at construction. -/
theorem untracked_run_characterization
    (ctx : DiffContext) (path : Path) (ignore : GitIgnoreStack)
    (isIgnored : Bool) :
    (∀ (fty : Dtype) (isSame : ObjectId → TreeEntryType → Except StoreError Bool),
      runTask ctx
          (createUntrackedEntry path (.ok (.file fty isSame)) ignore isIgnored)
        = errorOutput
            (.internalBug "UntrackedDiffEntry should only used with tree inodes")) ∧
    (∀ st : DirState,
      runTask ctx (createUntrackedEntry path (.ok (.dir st)) ignore isIgnored)
        = { events := [], ops := [],
            delegations := [.treeDiff path [] ignore isIgnored],
            result := .ok () }) := by
  exact ⟨fun fty isSame => rfl, fun st => rfl⟩

end EdenDiff
